import Mathlib

/-!
Shallow embedding of the restaurant-discovery code in src/pages/utils.py and
src/pages/1_Nearby_Restaurants.py.

The two external services (the Google Maps places directory and the JamAI
summarization service) are modelled by the finite streams of responses they
hand back to the code; a Python exception raised by a client call is
modelled as an Except.error value carrying the exception message.  The
Streamlit progress bar and status text are modelled as an explicit UIState
record threaded through the search.  Python floats (ratings) are never
computed with, only copied, so they are carried as rationals.
-/

/-- Python exception values, carried as their message string. -/
abbrev Err := String

/-- One review object from the places API.  The code reads it with
review.get applied to key "text" and default empty string, so the field is
an Option. -/
structure Review where
  text : Option String
deriving DecidableEq

/-- One photo object from the places API; the photo_reference key may be
missing (the code catches the resulting KeyError). -/
structure Photo where
  photo_reference : Option String
deriving DecidableEq

/-- The opening_hours sub-object; weekday_text may be missing, the code
defaults it to the empty list. -/
structure OpeningHoursInfo where
  weekday_text : Option (List String)
deriving DecidableEq

/-- The fields of the place-details record that get_nearby_restaurants
reads (utils.py lines 179-218).  Every key read through result.get with a
default is an Option or a defaulted list. -/
structure PlaceDetails where
  name : Option String
  vicinity : Option String
  price_level : Option Nat
  rating : Option ℚ
  reviews : List Review
  photos : List Photo
  opening_hours : Option OpeningHoursInfo
  url : Option String
deriving DecidableEq

/-- One generated row of a JamAI completion; columns is the mapping from
column id to cell text (a missing key raises KeyError in the code, which
its except clause turns into the fallback string). -/
structure GenRow where
  columns : List (String × String)
deriving DecidableEq

/-- A JamAI add_table_rows completion object. -/
structure Completion where
  rows : List GenRow
deriving DecidableEq

/-- The behaviour of jamai.table.add_table_rows on the review_processor
table, as a function of the submitted review_text cell: it can raise
(Except.error), return a falsy completion (Except.ok none), or return a
completion object. -/
abbrev SummarizeService := String → Except Err (Option Completion)

/-- utils.py lines 89-106, get_photo_url.  An absent or empty (falsy)
photo reference yields None; otherwise the URL is pure string formatting
from the base URL, the maxwidth, the reference and the API key.  The
Python parameter maxwidth defaults to 400; callers here pass 400
explicitly. -/
def get_photo_url (photo_reference : Option String) (api_key : String) (maxwidth : Nat) :
    Option String :=
  match photo_reference with
  | none => none
  | some r =>
    if r = "" then none
    else
      some ("https://maps.googleapis.com/maps/api/place/photo" ++ "?maxwidth=" ++
        toString maxwidth ++ "&photo_reference=" ++ r ++ "&key=" ++ api_key)

/-- utils.py lines 108-143, process_reviews.  An empty (falsy) review list
returns the fixed string immediately; otherwise the texts of the first
five reviews are joined with blank lines and submitted as one row; any
service exception, falsy completion, empty row list or missing summary
column yields the fixed fallback string.  The function is total: no
exception escapes. -/
def process_reviews (svc : SummarizeService) (reviews : List Review) : String :=
  if reviews.isEmpty then "No reviews available."
  else
    let review_texts := (reviews.take 5).map (fun rv => rv.text.getD "")
    let reviews_combined := String.intercalate "\n\n" review_texts
    match svc reviews_combined with
    | Except.error _ => "Review processing unavailable."
    | Except.ok none => "Review processing unavailable."
    | Except.ok (some completion) =>
      match completion.rows with
      | [] => "Review processing unavailable."
      | row :: _ =>
        match row.columns.lookup "summary" with
        | some t => t
        | none => "Review processing unavailable."

/-- The restaurant dict built at utils.py lines 210-219. -/
structure Restaurant where
  name : String
  address : String
  price_level : Option Nat
  rating : Option ℚ
  photo_url : Option String
  review_summary : String
  opening_hours : List String
  url : String
deriving DecidableEq

/-- utils.py lines 197-219: photo handling, review processing and the
restaurant dict for one place-details record.  A photos list whose first
entry lacks photo_reference raises KeyError, which is caught and leaves
photo_url as None. -/
def build_restaurant (api_key : String) (svc : SummarizeService) (result : PlaceDetails) :
    Restaurant :=
  let photo_url : Option String :=
    match result.photos with
    | [] => none
    | ph :: _ =>
      match ph.photo_reference with
      | none => none
      | some r => get_photo_url (some r) api_key 400
  let review_summary := process_reviews svc result.reviews
  { name := result.name.getD "N/A"
    address := result.vicinity.getD "N/A"
    price_level := result.price_level
    rating := result.rating
    photo_url := photo_url
    review_summary := review_summary
    opening_hours := ((result.opening_hours.getD { weekday_text := none }).weekday_text).getD []
    url := result.url.getD "N/A" }

/-- One page of the places_nearby response.  Each entry of results is the
outcome of the gmaps.place detail call for that candidate (the call at
utils.py lines 179-182, which can itself raise); next_page_token records
whether the page carries a next_page_token key. -/
structure Page where
  results : List (Except Err PlaceDetails)
  next_page_token : Bool

/-- The Streamlit progress bar and status text created at utils.py lines
147-148; none means the element is empty. -/
structure UIState where
  progress : Option Nat
  status : Option String
deriving DecidableEq

/-- Both progress indicators cleared, as done by status_text.empty() and
progress_bar.empty(). -/
def UIState.cleared : UIState := { progress := none, status := none }

/-- The final block of the success path, utils.py lines 244-253: show the
success status and full progress, then clear both indicators and return
the collected restaurants. -/
def finish_search (restaurants : List Restaurant) (ui : UIState) :
    Except Err (List Restaurant) × UIState :=
  let ui_success : UIState :=
    { ui with progress := some 100,
              status := some ("Found " ++ toString restaurants.length ++ " restaurants!") }
  (Except.ok restaurants, { ui_success with status := none, progress := none })

/-- The for loop over places_result results, utils.py lines 177-225: skip
a candidate whose estimated cost (price_level times 25) exceeds the
budget, skip a candidate without price info when exclude_no_price_info is
set, otherwise append the built restaurant and stop as soon as three are
collected.  A detail-call exception propagates.  processed_count is the
counter incremented per appended restaurant. -/
def process_places (api_key : String) (svc : SummarizeService) (budget : Nat)
    (exclude_no_price_info : Bool) :
    List (Except Err PlaceDetails) → List Restaurant → Nat →
    Except Err (List Restaurant × Nat)
  | [], restaurants, processed_count => Except.ok (restaurants, processed_count)
  | Except.error e :: _, _, _ => Except.error e
  | Except.ok result :: rest, restaurants, processed_count =>
    let price_level := result.price_level
    let over_budget : Bool :=
      match price_level with
      | some pl => decide (pl * 25 > budget)
      | none => false
    if over_budget then
      process_places api_key svc budget exclude_no_price_info rest restaurants processed_count
    else if exclude_no_price_info = true ∧ price_level = none then
      process_places api_key svc budget exclude_no_price_info rest restaurants processed_count
    else
      let restaurant := build_restaurant api_key svc result
      let restaurants1 := restaurants ++ [restaurant]
      let processed1 := processed_count + 1
      if 3 ≤ restaurants1.length then Except.ok (restaurants1, processed1)
      else process_places api_key svc budget exclude_no_price_info rest restaurants1 processed1

/-- The while loop of utils.py lines 173-242.  The loop runs while the
current page has results and fewer than three restaurants are collected;
it processes the page, stops when three are collected, otherwise follows
the next_page_token (the fixed sleep before re-querying has no observable
effect here) and otherwise falls through to the final success block.
next_responses is the stream of responses the client returns for the
successive token fetches; an exception anywhere is cleared-and-reraised by
the except clause at lines 255-258. -/
def search_pages (api_key : String) (svc : SummarizeService) (budget : Nat)
    (exclude_no_price_info : Bool) :
    List (Except Err Page) → Page → List Restaurant → Nat → UIState →
    Except Err (List Restaurant) × UIState
  | next_responses, places_result, restaurants, processed_count, ui =>
    if places_result.results.isEmpty = false ∧ restaurants.length < 3 then
      let ui1 : UIState :=
        { ui with status := some "Processing restaurant details...",
                  progress := some (min (50 + processed_count * 10) 90) }
      match process_places api_key svc budget exclude_no_price_info
          places_result.results restaurants processed_count with
      | Except.error e => (Except.error e, UIState.cleared)
      | Except.ok (restaurants1, processed1) =>
        if 3 ≤ restaurants1.length then finish_search restaurants1 ui1
        else if places_result.next_page_token then
          match next_responses with
          | [] => finish_search restaurants1 ui1
          | resp :: rest =>
            match resp with
            | Except.error e => (Except.error e, UIState.cleared)
            | Except.ok page1 =>
              search_pages api_key svc budget exclude_no_price_info
                rest page1 restaurants1 processed1 ui1
        else finish_search restaurants1 ui1
    else finish_search restaurants ui

/-- The search keyword built at utils.py line 161 from the preference
tags. -/
def search_keyword (preferences : List String) : String :=
  if preferences ≠ [] then "restaurant " ++ String.intercalate " " preferences
  else "restaurant"

/-- utils.py lines 145-258, get_nearby_restaurants.  The location and
radius only parametrise the external query, whose behaviour is modelled by
first_response (the initial places_nearby call) and next_responses (the
successive token fetches); preferences only feed the keyword.  The result
pairs the returned list (or the propagated exception) with the final state
of the progress indicators. -/
def get_nearby_restaurants (api_key : String) (svc : SummarizeService) (budget : Nat)
    (preferences : List String) (exclude_no_price_info : Bool)
    (first_response : Except Err Page) (next_responses : List (Except Err Page)) :
    Except Err (List Restaurant) × UIState :=
  let progress_ui : UIState := { progress := some 0, status := none }
  let ui1 : UIState :=
    { progress_ui with status := some "Initializing Google Maps Client...",
                       progress := some 10 }
  let ui2 : UIState :=
    { ui1 with status := some "Searching for nearby restaurants...", progress := some 30 }
  let _keyword := search_keyword preferences
  match first_response with
  | Except.error e => (Except.error e, UIState.cleared)
  | Except.ok places_result =>
    search_pages api_key svc budget exclude_no_price_info
      next_responses places_result [] 0 ui2

/-- The price condition the spec states for a returned listing: either the
price level is present and the estimated cost, price level times 25, is
within budget, or the price level is absent and exclude_no_price_info is
false. -/
def price_ok (budget : Nat) (exclude_no_price_info : Bool) (r : Restaurant) : Prop :=
  (∃ pl, r.price_level = some pl ∧ pl * 25 ≤ budget) ∨
    (r.price_level = none ∧ exclude_no_price_info = false)

/-- The single unit the spec says process_reviews submits: the text fields
of the first min(n, 5) reviews, concatenated in order with blank-line
separators.  This definition follows the words of the spec, to be compared
with the string process_reviews builds internally. -/
def spec_submitted_reviews (reviews : List Review) : String :=
  String.intercalate "\n\n"
    ((reviews.take (min reviews.length 5)).map (fun rv => rv.text.getD ""))

/-- The exception, if any, that the detail call for one candidate raised. -/
def detail_error (d : Except Err PlaceDetails) : Option Err :=
  match d with
  | Except.error e => some e
  | Except.ok _ => none

/-- All exceptions the upstream client can raise while serving one
places_nearby response: the fetch itself, or any detail call among its
results. -/
def page_errors (resp : Except Err Page) : List Err :=
  match resp with
  | Except.error e => [e]
  | Except.ok page => page.results.filterMap detail_error

/-- All exceptions the upstream client can raise during one whole search. -/
def client_errors (first_response : Except Err Page)
    (next_responses : List (Except Err Page)) : List Err :=
  page_errors first_response ++ (next_responses.map page_errors).flatten

/-- Number of formal parameters of initialize_jamai in utils.py line 15:
def initialize_jamai(): -/
def initialize_jamai_param_count : Nat := 0

/-- Number of defaulted parameters of initialize_jamai. -/
def initialize_jamai_default_count : Nat := 0

/-- Number of formal parameters of initialize_tables in utils.py line 43:
def initialize_tables(): -/
def initialize_tables_param_count : Nat := 0

/-- Number of defaulted parameters of initialize_tables. -/
def initialize_tables_default_count : Nat := 0

/-- Number of formal parameters of get_nearby_restaurants in utils.py line
145: api_key, location, radius, budget, preferences,
exclude_no_price_info. -/
def get_nearby_restaurants_param_count : Nat := 6

/-- Number of defaulted parameters of get_nearby_restaurants
(exclude_no_price_info has a default). -/
def get_nearby_restaurants_default_count : Nat := 1

/-- Number of positional arguments main passes to initialize_jamai at
1_Nearby_Restaurants.py line 74. -/
def main_args_initialize_jamai : Nat := 2

/-- Number of positional arguments main passes to initialize_tables at
1_Nearby_Restaurants.py line 77. -/
def main_args_initialize_tables : Nat := 1

/-- Number of positional arguments main passes to get_nearby_restaurants
at 1_Nearby_Restaurants.py lines 89-97. -/
def main_args_get_nearby_restaurants : Nat := 7

/-- Python call semantics for purely positional calls: a call with args
positional arguments to a function with params parameters, the last
defaults of which carry default values, succeeds iff
params - defaults ≤ args ≤ params; otherwise it raises TypeError. -/
def accepts_positional_call (params defaults args : Nat) : Bool :=
  decide (params - defaults ≤ args ∧ args ≤ params)

/-- Outcome of one submit of the form in 1_Nearby_Restaurants.py. -/
inductive MainOutcome where
  | missing_google_key
  | missing_jamai_credentials
  | type_error (callee : String)
  | search_ran
deriving DecidableEq

/-- 1_Nearby_Restaurants.py lines 63-97, the submit handler of main:
validate the credentials, then call initialize_jamai with 2 positional
arguments, initialize_tables with 1 and get_nearby_restaurants with 7; a
call whose arity the callee rejects raises TypeError, which the except
clause at line 133 shows as an error; only if all three calls are accepted
does the search run. -/
def main_submit (google_api_key jamai_project_id jamai_api_key : String) : MainOutcome :=
  if google_api_key = "" then MainOutcome.missing_google_key
  else if jamai_project_id = "" ∨ jamai_api_key = "" then
    MainOutcome.missing_jamai_credentials
  else if accepts_positional_call initialize_jamai_param_count
      initialize_jamai_default_count main_args_initialize_jamai = false then
    MainOutcome.type_error "initialize_jamai"
  else if accepts_positional_call initialize_tables_param_count
      initialize_tables_default_count main_args_initialize_tables = false then
    MainOutcome.type_error "initialize_tables"
  else if accepts_positional_call get_nearby_restaurants_param_count
      get_nearby_restaurants_default_count main_args_get_nearby_restaurants = false then
    MainOutcome.type_error "get_nearby_restaurants"
  else MainOutcome.search_ran

/-- The module-level JamAI client of utils.py lines 40-41: it is built
when the module loads, from the environment variables JAMAI_PROJECT_ID and
JAMAI_API_KEY.  behavior gives the summarization behaviour of the external
service as a function of the project id and API key the client was
constructed with. -/
def module_level_service (behavior : String → String → SummarizeService)
    (env_project_id env_api_key : String) : SummarizeService :=
  behavior env_project_id env_api_key

/-- Review summarization as it runs in a session of the app: utils.py line
119 always calls add_table_rows on the module-level client jamai, built
from the environment; the credentials typed into the form at
1_Nearby_Restaurants.py lines 34-35 are bound in main but never reach
process_reviews, so they appear here as parameters the body does not
use. -/
def session_review_summary (behavior : String → String → SummarizeService)
    (env_project_id env_api_key : String)
    (form_project_id form_api_key : String) (reviews : List Review) : String :=
  process_reviews (module_level_service behavior env_project_id env_api_key) reviews

/-- A summarization service for the concrete scenario of the spec: the
reviews lists there are empty, so its behaviour is never consulted. -/
def c3_svc : SummarizeService := fun _ => Except.error "service not reachable"

/-- Place details with the given name and price level and everything else
absent, for the concrete scenario of the spec. -/
def c3_details (nm : String) (pl : Option Nat) : PlaceDetails :=
  { name := some nm
    vicinity := none
    price_level := pl
    rating := none
    reviews := []
    photos := []
    opening_hours := none
    url := none }

/-- The single upstream page of the concrete scenario: five candidates
with price levels 1, 3, 2, absent, 0, and no next-page token. -/
def c3_page : Page :=
  { results :=
      [Except.ok (c3_details "R1" (some 1)),
       Except.ok (c3_details "R2" (some 3)),
       Except.ok (c3_details "R3" (some 2)),
       Except.ok (c3_details "R4" none),
       Except.ok (c3_details "R5" (some 0))]
    next_page_token := false }

/-- The listing get_nearby_restaurants builds for a kept candidate of the
concrete scenario. -/
def c3_expected (nm : String) (pl : Option Nat) : Restaurant :=
  { name := nm
    address := "N/A"
    price_level := pl
    rating := none
    photo_url := none
    review_summary := "No reviews available."
    opening_hours := []
    url := "N/A" }

/-- A summarization service that always raises, used for concrete runs
whose reviews lists are empty. -/
def failing_svc : SummarizeService := fun _ => Except.error "down"

/-- A single page carrying one candidate with the given name and price
level and no next-page token, for concrete runs. -/
def single_page (nm : String) (pl : Option Nat) : Page :=
  { results := [Except.ok (c3_details nm pl)], next_page_token := false }

/-- The restaurant record copies its price level from the place details. -/
theorem build_restaurant_price_level (a : String) (s : SummarizeService) (result : PlaceDetails) :
    (build_restaurant a s result).price_level = result.price_level := rfl

/-- The final success block returns the collected restaurants and leaves
both progress indicators cleared. -/
theorem finish_search_eq (restaurants : List Restaurant) (ui : UIState) :
    finish_search restaurants ui = (Except.ok restaurants, UIState.cleared) := rfl

/-- On a fetched page the possible client errors are those of its detail
calls. -/
theorem page_errors_ok (page : Page) :
    page_errors (Except.ok page) = page.results.filterMap detail_error := rfl

/-- Taking the first min(n, 5) reviews is the same as taking the first
five, so the unit described by the spec equals the string the code
builds. -/
theorem spec_submitted_reviews_eq (reviews : List Review) :
    spec_submitted_reviews reviews =
      String.intercalate "\n\n" ((reviews.take 5).map (fun rv => rv.text.getD "")) := by
  unfold spec_submitted_reviews
  rcases le_or_lt reviews.length 5 with h | h
  · rw [min_eq_left h, List.take_length, List.take_of_length_le h]
  · rw [min_eq_right (le_of_lt h)]

/-- A nonempty list is not isEmpty. -/
theorem list_isEmpty_false_of_ne_nil {α : Type} {l : List α} (h : l ≠ []) :
    l.isEmpty = false := by
  cases l with
  | nil => exact absurd rfl h
  | cons a t => rfl

/-- Every restaurant the page loop appends passes the price filter of
utils.py lines 188-195. -/
theorem process_places_ok_price (a : String) (s : SummarizeService) (b : Nat) (x : Bool) :
    ∀ (places : List (Except Err PlaceDetails)) (acc : List Restaurant) (pc : Nat)
      (rs : List Restaurant) (pc1 : Nat),
      process_places a s b x places acc pc = Except.ok (rs, pc1) →
      (∀ r ∈ acc, price_ok b x r) → ∀ r ∈ rs, price_ok b x r := by
  intro places
  induction places with
  | nil =>
    intro acc pc rs pc1 h hacc
    simp only [process_places, Except.ok.injEq, Prod.mk.injEq] at h
    exact h.1 ▸ hacc
  | cons d rest ih =>
    intro acc pc rs pc1 h hacc
    cases d with
    | error e => simp [process_places] at h
    | ok result =>
      simp only [process_places] at h
      rcases hpl : result.price_level with _ | pl
      · simp only [hpl] at h
        rw [if_neg (by simp)] at h
        by_cases hx : x = true
        · rw [if_pos (by simp [hx])] at h
          exact ih acc pc rs pc1 h hacc
        · have hx' : x = false := by revert hx; cases x <;> simp
          rw [if_neg (by simp [hx'])] at h
          have hext : ∀ r ∈ acc ++ [build_restaurant a s result], price_ok b x r := by
            intro r hr
            rcases List.mem_append.mp hr with hr | hr
            · exact hacc r hr
            · have hr' : r = build_restaurant a s result := by simpa using hr
              subst hr'
              exact Or.inr ⟨by rw [build_restaurant_price_level, hpl], hx'⟩
          by_cases h3 : 3 ≤ (acc ++ [build_restaurant a s result]).length
          · rw [if_pos h3] at h
            simp only [Except.ok.injEq, Prod.mk.injEq] at h
            exact h.1 ▸ hext
          · rw [if_neg h3] at h
            exact ih _ _ _ _ h hext
      · simp only [hpl, decide_eq_true_eq] at h
        by_cases hb : pl * 25 > b
        · rw [if_pos hb] at h
          exact ih acc pc rs pc1 h hacc
        · rw [if_neg hb] at h
          rw [if_neg (by simp)] at h
          have hext : ∀ r ∈ acc ++ [build_restaurant a s result], price_ok b x r := by
            intro r hr
            rcases List.mem_append.mp hr with hr | hr
            · exact hacc r hr
            · have hr' : r = build_restaurant a s result := by simpa using hr
              subst hr'
              exact Or.inl ⟨pl, by rw [build_restaurant_price_level, hpl], Nat.not_lt.mp hb⟩
          by_cases h3 : 3 ≤ (acc ++ [build_restaurant a s result]).length
          · rw [if_pos h3] at h
            simp only [Except.ok.injEq, Prod.mk.injEq] at h
            exact h.1 ▸ hext
          · rw [if_neg h3] at h
            exact ih _ _ _ _ h hext

/-- The page loop never grows the accumulator past three. -/
theorem process_places_ok_length (a : String) (s : SummarizeService) (b : Nat) (x : Bool) :
    ∀ (places : List (Except Err PlaceDetails)) (acc : List Restaurant) (pc : Nat)
      (rs : List Restaurant) (pc1 : Nat),
      process_places a s b x places acc pc = Except.ok (rs, pc1) →
      acc.length < 3 → rs.length ≤ 3 := by
  intro places
  induction places with
  | nil =>
    intro acc pc rs pc1 h hacc
    simp only [process_places, Except.ok.injEq, Prod.mk.injEq] at h
    rw [← h.1]
    omega
  | cons d rest ih =>
    intro acc pc rs pc1 h hacc
    cases d with
    | error e => simp [process_places] at h
    | ok result =>
      simp only [process_places] at h
      rcases hpl : result.price_level with _ | pl
      · simp only [hpl] at h
        rw [if_neg (by simp)] at h
        by_cases hx : x = true
        · rw [if_pos (by simp [hx])] at h
          exact ih acc pc rs pc1 h hacc
        · have hx' : x = false := by revert hx; cases x <;> simp
          rw [if_neg (by simp [hx'])] at h
          by_cases h3 : 3 ≤ (acc ++ [build_restaurant a s result]).length
          · rw [if_pos h3] at h
            simp only [Except.ok.injEq, Prod.mk.injEq] at h
            rw [← h.1]
            simp only [List.length_append, List.length_singleton]
            omega
          · rw [if_neg h3] at h
            refine ih _ _ _ _ h ?_
            simp only [List.length_append, List.length_singleton] at h3 ⊢
            omega
      · simp only [hpl, decide_eq_true_eq] at h
        by_cases hb : pl * 25 > b
        · rw [if_pos hb] at h
          exact ih acc pc rs pc1 h hacc
        · rw [if_neg hb] at h
          rw [if_neg (by simp)] at h
          by_cases h3 : 3 ≤ (acc ++ [build_restaurant a s result]).length
          · rw [if_pos h3] at h
            simp only [Except.ok.injEq, Prod.mk.injEq] at h
            rw [← h.1]
            simp only [List.length_append, List.length_singleton]
            omega
          · rw [if_neg h3] at h
            refine ih _ _ _ _ h ?_
            simp only [List.length_append, List.length_singleton] at h3 ⊢
            omega

/-- An exception escaping the page loop comes from one of the detail
calls of that page. -/
theorem process_places_error_mem (a : String) (s : SummarizeService) (b : Nat) (x : Bool) :
    ∀ (places : List (Except Err PlaceDetails)) (acc : List Restaurant) (pc : Nat) (e : Err),
      process_places a s b x places acc pc = Except.error e →
      e ∈ places.filterMap detail_error := by
  intro places
  induction places with
  | nil =>
    intro acc pc e h
    simp [process_places] at h
  | cons d rest ih =>
    intro acc pc e h
    cases d with
    | error e0 =>
      simp only [process_places, Except.error.injEq] at h
      simp [detail_error, List.filterMap_cons, ← h]
    | ok result =>
      have hrest : ∀ acc1 pc1, process_places a s b x rest acc1 pc1 = Except.error e →
          e ∈ (Except.ok result :: rest).filterMap detail_error := by
        intro acc1 pc1 hh
        simpa [detail_error, List.filterMap_cons] using ih acc1 pc1 e hh
      simp only [process_places] at h
      rcases hpl : result.price_level with _ | pl
      · simp only [hpl] at h
        rw [if_neg (by simp)] at h
        by_cases hx : x = true
        · rw [if_pos (by simp [hx])] at h
          exact hrest _ _ h
        · have hx' : x = false := by revert hx; cases x <;> simp
          rw [if_neg (by simp [hx'])] at h
          by_cases h3 : 3 ≤ (acc ++ [build_restaurant a s result]).length
          · rw [if_pos h3] at h
            simp at h
          · rw [if_neg h3] at h
            exact hrest _ _ h
      · simp only [hpl, decide_eq_true_eq] at h
        by_cases hb : pl * 25 > b
        · rw [if_pos hb] at h
          exact hrest _ _ h
        · rw [if_neg hb] at h
          rw [if_neg (by simp)] at h
          by_cases h3 : 3 ≤ (acc ++ [build_restaurant a s result]).length
          · rw [if_pos h3] at h
            simp at h
          · rw [if_neg h3] at h
            exact hrest _ _ h

/-- Listings returned by the page loop satisfy the price filter,
accumulated across pages. -/
theorem search_pages_ok_price (a : String) (s : SummarizeService) (b : Nat) (x : Bool) :
    ∀ (next : List (Except Err Page)) (page : Page) (acc : List Restaurant) (pc : Nat)
      (ui : UIState) (rs : List Restaurant) (u : UIState),
      search_pages a s b x next page acc pc ui = (Except.ok rs, u) →
      (∀ r ∈ acc, price_ok b x r) → ∀ r ∈ rs, price_ok b x r := by
  intro next
  induction next with
  | nil =>
    intro page acc pc ui rs u h hacc
    rw [search_pages] at h
    by_cases hc : page.results.isEmpty = false ∧ acc.length < 3
    · rw [if_pos hc] at h
      cases hpp : process_places a s b x page.results acc pc with
      | error e =>
        simp only [hpp, Prod.mk.injEq] at h
        exact Except.noConfusion h.1
      | ok pr =>
        obtain ⟨rs1, pc1⟩ := pr
        simp only [hpp] at h
        have hrs1 : ∀ r ∈ rs1, price_ok b x r :=
          process_places_ok_price a s b x page.results acc pc rs1 pc1 hpp hacc
        by_cases h3 : 3 ≤ rs1.length
        · rw [if_pos h3, finish_search_eq] at h
          simp only [Prod.mk.injEq, Except.ok.injEq] at h
          exact h.1 ▸ hrs1
        · rw [if_neg h3] at h
          by_cases ht : page.next_page_token = true
          · rw [if_pos ht] at h
            simp only [finish_search_eq, Prod.mk.injEq, Except.ok.injEq] at h
            exact h.1 ▸ hrs1
          · rw [if_neg ht, finish_search_eq] at h
            simp only [Prod.mk.injEq, Except.ok.injEq] at h
            exact h.1 ▸ hrs1
    · rw [if_neg hc, finish_search_eq] at h
      simp only [Prod.mk.injEq, Except.ok.injEq] at h
      exact h.1 ▸ hacc
  | cons resp rest ih =>
    intro page acc pc ui rs u h hacc
    rw [search_pages] at h
    by_cases hc : page.results.isEmpty = false ∧ acc.length < 3
    · rw [if_pos hc] at h
      cases hpp : process_places a s b x page.results acc pc with
      | error e =>
        simp only [hpp, Prod.mk.injEq] at h
        exact Except.noConfusion h.1
      | ok pr =>
        obtain ⟨rs1, pc1⟩ := pr
        simp only [hpp] at h
        have hrs1 : ∀ r ∈ rs1, price_ok b x r :=
          process_places_ok_price a s b x page.results acc pc rs1 pc1 hpp hacc
        by_cases h3 : 3 ≤ rs1.length
        · rw [if_pos h3, finish_search_eq] at h
          simp only [Prod.mk.injEq, Except.ok.injEq] at h
          exact h.1 ▸ hrs1
        · rw [if_neg h3] at h
          by_cases ht : page.next_page_token = true
          · rw [if_pos ht] at h
            cases resp with
            | error e =>
              simp only [Prod.mk.injEq] at h
              exact Except.noConfusion h.1
            | ok page1 => exact ih page1 rs1 pc1 _ rs u h hrs1
          · rw [if_neg ht, finish_search_eq] at h
            simp only [Prod.mk.injEq, Except.ok.injEq] at h
            exact h.1 ▸ hrs1
    · rw [if_neg hc, finish_search_eq] at h
      simp only [Prod.mk.injEq, Except.ok.injEq] at h
      exact h.1 ▸ hacc

theorem search_pages_ok_length (a : String) (s : SummarizeService) (b : Nat) (x : Bool) :
    ∀ (next : List (Except Err Page)) (page : Page) (acc : List Restaurant) (pc : Nat)
      (ui : UIState) (rs : List Restaurant) (u : UIState),
      search_pages a s b x next page acc pc ui = (Except.ok rs, u) →
      acc.length ≤ 3 → rs.length ≤ 3 := by
  intro next
  induction next with
  | nil =>
    intro page acc pc ui rs u h hacc
    rw [search_pages] at h
    by_cases hc : page.results.isEmpty = false ∧ acc.length < 3
    · rw [if_pos hc] at h
      cases hpp : process_places a s b x page.results acc pc with
      | error e =>
        simp only [hpp, Prod.mk.injEq] at h
        exact Except.noConfusion h.1
      | ok pr =>
        obtain ⟨rs1, pc1⟩ := pr
        simp only [hpp] at h
        have hrs1 : rs1.length ≤ 3 :=
          process_places_ok_length a s b x page.results acc pc rs1 pc1 hpp hc.2
        by_cases h3 : 3 ≤ rs1.length
        · rw [if_pos h3, finish_search_eq] at h
          simp only [Prod.mk.injEq, Except.ok.injEq] at h
          exact h.1 ▸ hrs1
        · rw [if_neg h3] at h
          by_cases ht : page.next_page_token = true
          · rw [if_pos ht] at h
            simp only [finish_search_eq, Prod.mk.injEq, Except.ok.injEq] at h
            exact h.1 ▸ hrs1
          · rw [if_neg ht, finish_search_eq] at h
            simp only [Prod.mk.injEq, Except.ok.injEq] at h
            exact h.1 ▸ hrs1
    · rw [if_neg hc, finish_search_eq] at h
      simp only [Prod.mk.injEq, Except.ok.injEq] at h
      exact h.1 ▸ hacc
  | cons resp rest ih =>
    intro page acc pc ui rs u h hacc
    rw [search_pages] at h
    by_cases hc : page.results.isEmpty = false ∧ acc.length < 3
    · rw [if_pos hc] at h
      cases hpp : process_places a s b x page.results acc pc with
      | error e =>
        simp only [hpp, Prod.mk.injEq] at h
        exact Except.noConfusion h.1
      | ok pr =>
        obtain ⟨rs1, pc1⟩ := pr
        simp only [hpp] at h
        have hrs1 : rs1.length ≤ 3 :=
          process_places_ok_length a s b x page.results acc pc rs1 pc1 hpp hc.2
        by_cases h3 : 3 ≤ rs1.length
        · rw [if_pos h3, finish_search_eq] at h
          simp only [Prod.mk.injEq, Except.ok.injEq] at h
          exact h.1 ▸ hrs1
        · rw [if_neg h3] at h
          by_cases ht : page.next_page_token = true
          · rw [if_pos ht] at h
            cases resp with
            | error e =>
              simp only [Prod.mk.injEq] at h
              exact Except.noConfusion h.1
            | ok page1 => exact ih page1 rs1 pc1 _ rs u h hrs1
          · rw [if_neg ht, finish_search_eq] at h
            simp only [Prod.mk.injEq, Except.ok.injEq] at h
            exact h.1 ▸ hrs1
    · rw [if_neg hc, finish_search_eq] at h
      simp only [Prod.mk.injEq, Except.ok.injEq] at h
      exact h.1 ▸ hacc

theorem search_pages_snd (a : String) (s : SummarizeService) (b : Nat) (x : Bool) :
    ∀ (next : List (Except Err Page)) (page : Page) (acc : List Restaurant) (pc : Nat)
      (ui : UIState),
      (search_pages a s b x next page acc pc ui).2 = UIState.cleared := by
  intro next
  induction next with
  | nil =>
    intro page acc pc ui
    rw [search_pages]
    by_cases hc : page.results.isEmpty = false ∧ acc.length < 3
    · rw [if_pos hc]
      cases hpp : process_places a s b x page.results acc pc with
      | error e => simp only [hpp]
      | ok pr =>
        obtain ⟨rs1, pc1⟩ := pr
        simp only [hpp]
        by_cases h3 : 3 ≤ rs1.length
        · rw [if_pos h3, finish_search_eq]
        · rw [if_neg h3]
          by_cases ht : page.next_page_token = true
          · rw [if_pos ht]
            simp only [finish_search_eq]
          · rw [if_neg ht, finish_search_eq]
    · rw [if_neg hc, finish_search_eq]
  | cons resp rest ih =>
    intro page acc pc ui
    rw [search_pages]
    by_cases hc : page.results.isEmpty = false ∧ acc.length < 3
    · rw [if_pos hc]
      cases hpp : process_places a s b x page.results acc pc with
      | error e => simp only [hpp]
      | ok pr =>
        obtain ⟨rs1, pc1⟩ := pr
        simp only [hpp]
        by_cases h3 : 3 ≤ rs1.length
        · rw [if_pos h3, finish_search_eq]
        · rw [if_neg h3]
          by_cases ht : page.next_page_token = true
          · rw [if_pos ht]
            cases resp with
            | error e => simp only
            | ok page1 => exact ih page1 rs1 pc1 _
          · rw [if_neg ht, finish_search_eq]
    · rw [if_neg hc, finish_search_eq]

theorem search_pages_error_mem (a : String) (s : SummarizeService) (b : Nat) (x : Bool) :
    ∀ (next : List (Except Err Page)) (page : Page) (acc : List Restaurant) (pc : Nat)
      (ui : UIState) (e : Err) (u : UIState),
      search_pages a s b x next page acc pc ui = (Except.error e, u) →
      e ∈ page_errors (Except.ok page) ++ (next.map page_errors).flatten := by
  intro next
  induction next with
  | nil =>
    intro page acc pc ui e u h
    rw [search_pages] at h
    by_cases hc : page.results.isEmpty = false ∧ acc.length < 3
    · rw [if_pos hc] at h
      cases hpp : process_places a s b x page.results acc pc with
      | error e0 =>
        simp only [hpp, Prod.mk.injEq, Except.error.injEq] at h
        have he : e0 = e := h.1
        refine List.mem_append_left _ ?_
        rw [page_errors_ok, ← he]
        exact process_places_error_mem a s b x page.results acc pc e0 hpp
      | ok pr =>
        obtain ⟨rs1, pc1⟩ := pr
        simp only [hpp] at h
        by_cases h3 : 3 ≤ rs1.length
        · rw [if_pos h3, finish_search_eq] at h
          simp only [Prod.mk.injEq] at h
          exact Except.noConfusion h.1
        · rw [if_neg h3] at h
          by_cases ht : page.next_page_token = true
          · rw [if_pos ht] at h
            simp only [finish_search_eq, Prod.mk.injEq] at h
            exact Except.noConfusion h.1
          · rw [if_neg ht, finish_search_eq] at h
            simp only [Prod.mk.injEq] at h
            exact Except.noConfusion h.1
    · rw [if_neg hc, finish_search_eq] at h
      simp only [Prod.mk.injEq] at h
      exact Except.noConfusion h.1
  | cons resp rest ih =>
    intro page acc pc ui e u h
    rw [search_pages] at h
    by_cases hc : page.results.isEmpty = false ∧ acc.length < 3
    · rw [if_pos hc] at h
      cases hpp : process_places a s b x page.results acc pc with
      | error e0 =>
        simp only [hpp, Prod.mk.injEq, Except.error.injEq] at h
        have he : e0 = e := h.1
        refine List.mem_append_left _ ?_
        rw [page_errors_ok, ← he]
        exact process_places_error_mem a s b x page.results acc pc e0 hpp
      | ok pr =>
        obtain ⟨rs1, pc1⟩ := pr
        simp only [hpp] at h
        by_cases h3 : 3 ≤ rs1.length
        · rw [if_pos h3, finish_search_eq] at h
          simp only [Prod.mk.injEq] at h
          exact Except.noConfusion h.1
        · rw [if_neg h3] at h
          by_cases ht : page.next_page_token = true
          · rw [if_pos ht] at h
            cases resp with
            | error e0 =>
              simp only [Prod.mk.injEq, Except.error.injEq] at h
              have he : e0 = e := h.1
              refine List.mem_append_right _ ?_
              simp only [List.map_cons, List.flatten_cons]
              refine List.mem_append_left _ ?_
              simp [page_errors, he]
            | ok page1 =>
              have hmem := ih page1 rs1 pc1 _ e u h
              rcases List.mem_append.mp hmem with hm | hm
              · refine List.mem_append_right _ ?_
                simp only [List.map_cons, List.flatten_cons]
                exact List.mem_append_left _ hm
              · refine List.mem_append_right _ ?_
                simp only [List.map_cons, List.flatten_cons]
                exact List.mem_append_right _ hm
          · rw [if_neg ht, finish_search_eq] at h
            simp only [Prod.mk.injEq] at h
            exact Except.noConfusion h.1
    · rw [if_neg hc, finish_search_eq] at h
      simp only [Prod.mk.injEq] at h
      exact Except.noConfusion h.1

/-- C1: every listing a successful run of get_nearby_restaurants returns
satisfies the price invariant: its price level is present and price level
times 25 is at most the budget, or its price level is absent and
exclude_no_price_info is false.  In particular a listing with any price
level in 0..4 is included only when its estimated cost is within budget,
and with exclude_no_price_info set no priceless listing is returned. -/
theorem get_nearby_restaurants_price_filter
    (api_key : String) (svc : SummarizeService) (budget : Nat) (preferences : List String)
    (exclude_no_price_info : Bool) (first_response : Except Err Page)
    (next_responses : List (Except Err Page)) (rs : List Restaurant) (u : UIState)
    (h : get_nearby_restaurants api_key svc budget preferences exclude_no_price_info
      first_response next_responses = (Except.ok rs, u)) :
    ∀ r ∈ rs, price_ok budget exclude_no_price_info r := by
  cases first_response with
  | error e =>
    simp only [get_nearby_restaurants, Prod.mk.injEq] at h
    exact Except.noConfusion h.1
  | ok page =>
    simp only [get_nearby_restaurants] at h
    refine search_pages_ok_price api_key svc budget exclude_no_price_info
      next_responses page [] 0 _ rs u h ?_
    intro r hr
    cases hr

theorem get_nearby_restaurants_price_filter_witness :
    price_ok 50 true (c3_expected "W" (some 1)) :=
  get_nearby_restaurants_price_filter "K" failing_svc 50 [] true
    (Except.ok (single_page "W" (some 1))) [] [c3_expected "W" (some 1)] UIState.cleared rfl
    (c3_expected "W" (some 1)) (by simp)

/-- C2: whatever the upstream pages and candidates are, a successful run
of get_nearby_restaurants returns at most three listings. -/
theorem get_nearby_restaurants_at_most_three
    (api_key : String) (svc : SummarizeService) (budget : Nat) (preferences : List String)
    (exclude_no_price_info : Bool) (first_response : Except Err Page)
    (next_responses : List (Except Err Page)) (rs : List Restaurant) (u : UIState)
    (h : get_nearby_restaurants api_key svc budget preferences exclude_no_price_info
      first_response next_responses = (Except.ok rs, u)) :
    rs.length ≤ 3 := by
  cases first_response with
  | error e =>
    simp only [get_nearby_restaurants, Prod.mk.injEq] at h
    exact Except.noConfusion h.1
  | ok page =>
    simp only [get_nearby_restaurants] at h
    exact search_pages_ok_length api_key svc budget exclude_no_price_info
      next_responses page [] 0 _ rs u h (by simp)

theorem get_nearby_restaurants_at_most_three_witness :
    ([c3_expected "V" (some 2)] : List Restaurant).length ≤ 3 :=
  get_nearby_restaurants_at_most_three "K" failing_svc 50 [] true
    (Except.ok (single_page "V" (some 2))) [] [c3_expected "V" (some 2)] UIState.cleared rfl

/-- C3: with budget 50, exclude_no_price_info set, and one upstream page
of five candidates whose price levels are 1, 3, 2, absent, 0 in that
order, get_nearby_restaurants returns exactly the candidates with price
levels 1, 2, 0 in upstream order: the priceless candidate and the
price-level-3 candidate (cost 75 over 50) are dropped. -/
theorem get_nearby_restaurants_scenario :
    get_nearby_restaurants "K" c3_svc 50 [] true (Except.ok c3_page) [] =
      (Except.ok [c3_expected "R1" (some 1), c3_expected "R3" (some 2),
        c3_expected "R5" (some 0)], UIState.cleared) := rfl

/-- C4: process_reviews never raises (it is a total function of the
service behaviour); an empty review list returns exactly the string
quoted in the spec, and any failure of the summarization service on the
submitted unit (a raised exception, a falsy completion, or a completion
with no rows) returns exactly the fallback string instead of propagating
the error. -/
theorem process_reviews_fallback_strings :
    (∀ svc : SummarizeService, process_reviews svc [] = "No reviews available.") ∧
    (∀ (svc : SummarizeService) (reviews : List Review) (e : Err),
      reviews ≠ [] → svc (spec_submitted_reviews reviews) = Except.error e →
      process_reviews svc reviews = "Review processing unavailable.") ∧
    (∀ (svc : SummarizeService) (reviews : List Review),
      reviews ≠ [] → svc (spec_submitted_reviews reviews) = Except.ok none →
      process_reviews svc reviews = "Review processing unavailable.") ∧
    (∀ (svc : SummarizeService) (reviews : List Review) (c : Completion),
      reviews ≠ [] → svc (spec_submitted_reviews reviews) = Except.ok (some c) →
      c.rows = [] → process_reviews svc reviews = "Review processing unavailable.") := by
  refine ⟨fun svc => rfl, ?_, ?_, ?_⟩
  · intro svc reviews e hne hsvc
    rw [spec_submitted_reviews_eq] at hsvc
    simp only [process_reviews, list_isEmpty_false_of_ne_nil hne, Bool.false_eq_true,
      if_false, hsvc]
  · intro svc reviews hne hsvc
    rw [spec_submitted_reviews_eq] at hsvc
    simp only [process_reviews, list_isEmpty_false_of_ne_nil hne, Bool.false_eq_true,
      if_false, hsvc]
  · intro svc reviews c hne hsvc hrows
    rw [spec_submitted_reviews_eq] at hsvc
    simp only [process_reviews, list_isEmpty_false_of_ne_nil hne, Bool.false_eq_true,
      if_false, hsvc, hrows]

theorem process_reviews_fallback_strings_witness :
    process_reviews (fun _ => Except.error "down") [{ text := some "Great food" }] =
      "Review processing unavailable." :=
  process_reviews_fallback_strings.2.1 (fun _ => Except.error "down")
    [{ text := some "Great food" }] "down" (by simp) rfl

/-- C5: get_photo_url is a pure deterministic string construction (a Lean
function, making no call): an absent or empty (falsy) reference yields
none, and for a nonempty reference r and key k the result is a URL built
from a fixed prefix carrying maxwidth 400, then r, then a separator, then
k, hence containing both r and k. -/
theorem get_photo_url_pure :
    (∀ (k : String) (m : Nat), get_photo_url none k m = none) ∧
    (∀ (k : String) (m : Nat), get_photo_url (some "") k m = none) ∧
    (∀ r k : String, r ≠ "" →
      ∃ pre mid, get_photo_url (some r) k 400 = some (pre ++ r ++ mid ++ k) ∧
        pre = "https://maps.googleapis.com/maps/api/place/photo?maxwidth=400&photo_reference=" ∧
        mid = "&key=") := by
  refine ⟨fun k m => rfl, fun k m => rfl, fun r k h => ?_⟩
  refine ⟨"https://maps.googleapis.com/maps/api/place/photo" ++ "?maxwidth=" ++
    toString (400 : Nat) ++ "&photo_reference=", "&key=", ?_, by rfl, rfl⟩
  simp only [get_photo_url]
  rw [if_neg h]

theorem get_photo_url_pure_witness :
    ∃ pre mid, get_photo_url (some "abc") "K" 400 = some (pre ++ "abc" ++ mid ++ "K") ∧
      pre = "https://maps.googleapis.com/maps/api/place/photo?maxwidth=400&photo_reference=" ∧
      mid = "&key=" :=
  get_photo_url_pure.2.2 "abc" "K" (by decide)

/-- C6: process_reviews consults the summarization service only at the
single unit the spec describes, the text fields of the first min(n, 5)
reviews joined in order with blank-line separators: two services that
agree on that one submitted string produce identical results on every
review list. -/
theorem process_reviews_uses_first_five (svc1 svc2 : SummarizeService) (reviews : List Review)
    (h : svc1 (spec_submitted_reviews reviews) = svc2 (spec_submitted_reviews reviews)) :
    process_reviews svc1 reviews = process_reviews svc2 reviews := by
  rw [spec_submitted_reviews_eq] at h
  simp only [process_reviews]
  by_cases he : reviews.isEmpty = true
  · rw [if_pos he, if_pos he]
  · rw [if_neg he, if_neg he, h]

theorem process_reviews_uses_first_five_witness :
    process_reviews (fun _ => Except.error "a") [{ text := some "t" }] =
      process_reviews (fun s =>
        if s = "t" then Except.error "a" else Except.ok none) [{ text := some "t" }] :=
  process_reviews_uses_first_five (fun _ => Except.error "a")
    (fun s => if s = "t" then Except.error "a" else Except.ok none)
    [{ text := some "t" }] rfl

/-- C7: get_nearby_restaurants always finishes with the progress bar and
status text cleared (also on the success path), and when it ends in an
exception that exception is one raised by the upstream places client (no
retry and no substitute result: the error outcome carries no listing
list). -/
theorem get_nearby_restaurants_error_propagation
    (api_key : String) (svc : SummarizeService) (budget : Nat) (preferences : List String)
    (exclude_no_price_info : Bool) (first_response : Except Err Page)
    (next_responses : List (Except Err Page)) :
    (get_nearby_restaurants api_key svc budget preferences exclude_no_price_info
        first_response next_responses).2 = UIState.cleared ∧
    (∀ (e : Err) (u : UIState),
      get_nearby_restaurants api_key svc budget preferences exclude_no_price_info
        first_response next_responses = (Except.error e, u) →
      e ∈ client_errors first_response next_responses) := by
  constructor
  · cases first_response with
    | error e => rfl
    | ok page =>
      simp only [get_nearby_restaurants]
      exact search_pages_snd api_key svc budget exclude_no_price_info next_responses page [] 0 _
  · intro e u h
    cases first_response with
    | error e0 =>
      simp only [get_nearby_restaurants, Prod.mk.injEq, Except.error.injEq] at h
      simp [client_errors, page_errors, h.1]
    | ok page =>
      simp only [get_nearby_restaurants] at h
      have hm := search_pages_error_mem api_key svc budget exclude_no_price_info
        next_responses page [] 0 _ e u h
      simpa [client_errors] using hm

theorem get_nearby_restaurants_error_propagation_witness :
    "boom" ∈ client_errors (Except.error "boom") ([] : List (Except Err Page)) :=
  (get_nearby_restaurants_error_propagation "K" (fun _ => Except.error "down") 50 [] true
    (Except.error "boom") []).2 "boom" UIState.cleared rfl

/-- C8: the pagination loop is a total structurally recursive function,
and under any of the stopping conditions of the spec (the page has no
results, three listings are already collected, the page carries no
next-page token, or processing this page reaches three listings) its
result does not depend on the remaining response stream: the loop
terminates at this page without consuming further pages. -/
theorem search_pages_stop_conditions (a : String) (s : SummarizeService) (b : Nat) (x : Bool)
    (page : Page) (next1 next2 : List (Except Err Page)) (acc : List Restaurant) (pc : Nat)
    (ui : UIState)
    (h : page.results = [] ∨ 3 ≤ acc.length ∨ page.next_page_token = false ∨
      (∀ (rs1 : List Restaurant) (pc1 : Nat),
        process_places a s b x page.results acc pc = Except.ok (rs1, pc1) → 3 ≤ rs1.length)) :
    search_pages a s b x next1 page acc pc ui = search_pages a s b x next2 page acc pc ui := by
  conv_lhs => rw [search_pages]
  conv_rhs => rw [search_pages]
  by_cases hc : page.results.isEmpty = false ∧ acc.length < 3
  · rw [if_pos hc, if_pos hc]
    rcases h with h | h | h | h
    · exfalso
      rw [h] at hc
      simp at hc
    · exact absurd hc.2 (by omega)
    · cases hpp : process_places a s b x page.results acc pc with
      | error e => simp only [hpp]
      | ok pr =>
        obtain ⟨rs1, pc1⟩ := pr
        simp only [hpp]
        by_cases h3 : 3 ≤ rs1.length
        · rw [if_pos h3, if_pos h3]
        · rw [if_neg h3, if_neg h3, if_neg (by simp [h]), if_neg (by simp [h])]
    · cases hpp : process_places a s b x page.results acc pc with
      | error e => simp only [hpp]
      | ok pr =>
        obtain ⟨rs1, pc1⟩ := pr
        simp only [hpp]
        rw [if_pos (h rs1 pc1 hpp), if_pos (h rs1 pc1 hpp)]
  · rw [if_neg hc, if_neg hc]

theorem search_pages_stop_conditions_witness :
    search_pages "K" failing_svc 50 true [Except.error "x"]
        { results := [], next_page_token := true } [] 0 UIState.cleared =
      search_pages "K" failing_svc 50 true []
        { results := [], next_page_token := true } [] 0 UIState.cleared :=
  search_pages_stop_conditions "K" failing_svc 50 true
    { results := [], next_page_token := true } [Except.error "x"] [] [] 0 UIState.cleared
    (Or.inl rfl)

/-- C9: the submit pipeline of main always raises TypeError before any
search happens, because main calls initialize_jamai with 2 positional
arguments, initialize_tables with 1 and get_nearby_restaurants with 7
while their definitions accept 0, 0 and 6 parameters: all three calls
fail the Python arity check, with nonempty credentials the outcome is the
TypeError at the initialize_jamai call, and the success outcome is
unreachable for every input. -/
theorem main_pipeline_arity_mismatch :
    accepts_positional_call initialize_jamai_param_count initialize_jamai_default_count
      main_args_initialize_jamai = false ∧
    accepts_positional_call initialize_tables_param_count initialize_tables_default_count
      main_args_initialize_tables = false ∧
    accepts_positional_call get_nearby_restaurants_param_count
      get_nearby_restaurants_default_count main_args_get_nearby_restaurants = false ∧
    (∀ g p k : String, g ≠ "" → p ≠ "" → k ≠ "" →
      main_submit g p k = MainOutcome.type_error "initialize_jamai") ∧
    (∀ g p k : String, main_submit g p k ≠ MainOutcome.search_ran) := by
  refine ⟨by decide, by decide, by decide, ?_, ?_⟩
  · intro g p k hg hp hk
    unfold main_submit
    rw [if_neg hg, if_neg (by simp [hp, hk]), if_pos (by decide)]
  · intro g p k hcontra
    unfold main_submit at hcontra
    by_cases hg : g = ""
    · rw [if_pos hg] at hcontra
      exact MainOutcome.noConfusion hcontra
    · rw [if_neg hg] at hcontra
      by_cases hpk : p = "" ∨ k = ""
      · rw [if_pos hpk] at hcontra
        exact MainOutcome.noConfusion hcontra
      · rw [if_neg hpk, if_pos (by decide)] at hcontra
        exact MainOutcome.noConfusion hcontra

theorem main_pipeline_arity_mismatch_witness :
    main_submit "G" "P" "J" = MainOutcome.type_error "initialize_jamai" :=
  main_pipeline_arity_mismatch.2.2.2.1 "G" "P" "J" (by decide) (by decide) (by decide)

/-- C10: the review-summarization behaviour is independent of the JamAI
credentials entered in the form: two session runs of process_reviews that
differ only in the form-entered project id and API key behave identically,
because the function uses the module-level client constructed at import
time from the environment variables and never the form values. -/
theorem session_review_summary_credential_independent
    (behavior : String → String → SummarizeService) (env_project_id env_api_key : String)
    (p1 k1 p2 k2 : String) (reviews : List Review) :
    session_review_summary behavior env_project_id env_api_key p1 k1 reviews =
      session_review_summary behavior env_project_id env_api_key p2 k2 reviews := rfl
